import Mathlib

/-!
Verification of the Product REST API (Express/TypeScript).

The embedding models, from `src/router.ts`:
  * the per-route validation chains built with express-validator
    (`param("id").isInt()`, `body("name").notEmpty()`,
    `body("price").isNumeric().notEmpty().custom(v => v > 0)`,
    `body("availability").isBoolean()`),
  * the route table, in registration order, including the duplicate
    `PATCH /:id` registration,
  * Express dispatch: routes are tried in order; a matching route runs its
    middleware chain, which either responds or falls through to later routes.

From `src/config/swagger.ts` (which also holds the server assembly):
  * the CORS origin callback comparing the request origin with
    `process.env.FRONTEND_URL` by strict equality.

The product handlers (`src/handlers/product.ts`) and the
`handleInputErrors` middleware body are not part of the provided sources;
they are modelled from the spec, as marked on each definition.
-/

namespace RestApi

/-- A JSON value as it appears in a request body field.  Numbers are
modelled as rationals (JSON numeric literals are finite decimals). -/
inductive Json where
  | str (s : String)
  | num (q : Rat)
  | bool (b : Bool)
  | null
deriving DecidableEq, Repr

/-- HTTP methods used by the router. -/
inductive Method where
  | GET | POST | PUT | PATCH | DELETE
deriving DecidableEq, Repr, BEq

/-- The request body, restricted to the three fields the routes read.
`none` models an absent field (JS `undefined`). -/
structure Body where
  name : Option Json := none
  price : Option Json := none
  availability : Option Json := none
deriving DecidableEq, Repr

/-- An incoming request: method, the path segments below the
`/api/products` mount point (`[]` for `/`, `[s]` for `/:id`), and the
parsed JSON body. -/
structure Request where
  method : Method
  path : List String
  body : Body
deriving DecidableEq, Repr

/-- A Product row.  `id` is an integer primary key assigned by the store. -/
structure Product where
  id : Int
  name : String
  price : Rat
  availability : Bool
deriving DecidableEq, Repr

/-- The data store: the Product table plus the next primary key to assign. -/
structure Store where
  products : List Product
  nextId : Int
deriving DecidableEq, Repr

/-- A validation error record: (field name, message), as collected by
express-validator and reported in the `{ errors: [...] }` body. -/
abbrev ValError := String × String

/-- A response body: a product, a list of products, a validation error
list, or a plain message. -/
inductive RespBody where
  | product (p : Product)
  | products (ps : List Product)
  | errors (es : List ValError)
  | message (s : String)
deriving DecidableEq, Repr

/-- An HTTP response: status code and JSON body. -/
structure Response where
  status : Nat
  body : RespBody
deriving DecidableEq, Repr

/-! ### String checks of the validator library (validator.js semantics) -/

/-- Strip one leading `+` or `-` sign. -/
def stripSign (cs : List Char) : List Char :=
  match cs with
  | c :: rest => if c = '-' || c = '+' then rest else cs
  | [] => []

/-- `validator.isInt` with default options: `^[+-]?[0-9]+$`. -/
def isIntString (s : String) : Bool :=
  let t := stripSign s.data
  !t.isEmpty && t.all Char.isDigit

/-- `validator.isNumeric` with default options:
`^[+-]?([0-9]*[.])?[0-9]+$`. -/
def isNumericString (s : String) : Bool :=
  match (stripSign s.data).splitOn '.' with
  | [a] => !a.isEmpty && a.all Char.isDigit
  | [a, b] => a.all Char.isDigit && (!b.isEmpty && b.all Char.isDigit)
  | _ => false

/-- Value of a digit string. -/
def digitsToNat (cs : List Char) : Nat :=
  cs.foldl (fun n c => n * 10 + (c.toNat - 48)) 0

/-- Parse a string accepted by `isIntString` into an integer. -/
def parseIntString (s : String) : Option Int :=
  if isIntString s then
    let neg : Bool := match s.data with
      | c :: _ => c = '-'
      | [] => false
    let n : Int := digitsToNat (stripSign s.data)
    some (if neg then -n else n)
  else none

/-- Numeric value of a string accepted by `isNumericString`
(JS `Number(s)` on such strings). -/
def ratOfNumericString (s : String) : Option Rat :=
  if isNumericString s then
    let neg : Bool := match s.data with
      | c :: _ => c = '-'
      | [] => false
    let q : Rat :=
      match (stripSign s.data).splitOn '.' with
      | [a] => (digitsToNat a : Rat)
      | [a, b] => (digitsToNat a : Rat) +
          (digitsToNat b : Rat) / ((10 : Rat) ^ b.length)
      | _ => 0
    some (if neg then -q else q)
  else none

/-- Numeric value of a body field value, when it has one. -/
def numericValue : Json → Option Rat
  | .num q => some q
  | .str s => ratOfNumericString s
  | _ => none

/-- express-validator coerces a field to a string before running a
validator.js check; this is empty exactly for absent, `null` and `""`
values (`notEmpty` fails on these). -/
def fieldEmpty : Option Json → Bool
  | none => true
  | some .null => true
  | some (.str s) => s = ""
  | some _ => false

/-- `isNumeric` applied to the stringified field: absent/`null` become `""`
(not numeric); numbers stringify to numeric literals; booleans to
`"true"`/`"false"` (not numeric). -/
def isNumericJson : Option Json → Bool
  | some (.num _) => true
  | some (.str s) => isNumericString s
  | _ => false

/-- `isBoolean` (default options) on the stringified field: booleans pass;
strings must be one of `"true" "false" "1" "0"`; numbers stringify, so
only `1` and `0` pass; absent fields become `""` and fail. -/
def isBooleanJson : Option Json → Bool
  | some (.bool _) => true
  | some (.str s) => s = "true" || s = "false" || s = "1" || s = "0"
  | some (.num q) => q = 1 || q = 0
  | _ => false

/-- The `custom((value) => value > 0)` check on the raw field value:
numbers and numeric strings compare as numbers; `true` coerces to 1;
everything else compares as NaN or 0 and fails. -/
def jsGtZero : Option Json → Bool
  | some (.num q) => 0 < q
  | some (.str s) =>
      match ratOfNumericString s with
      | some q => 0 < q
      | none => false
  | some (.bool b) => b
  | _ => false

/-! ### Validators, as declared on the routes in `src/router.ts` -/

/-- The request field a validator is bound to: the `:id` path parameter or
one of the three body fields. -/
inductive Field where
  | paramId | name | price | availability
deriving DecidableEq, Repr

/-- The individual checks used by the routes. -/
inductive Check where
  | isInt | notEmpty | isNumeric | customGtZero | isBoolean
deriving DecidableEq, Repr

/-- One validator of a chain: field, check, and the `withMessage` text. -/
structure Validator where
  field : Field
  check : Check
  msg : String
deriving DecidableEq, Repr

/-- Reported name of a field in an error record. -/
def Field.reportName : Field → String
  | .paramId => "id"
  | .name => "name"
  | .price => "price"
  | .availability => "availability"

/-- Extract a field's value from the request.  The `:id` path parameter is
always a string (the path segment); body fields are optional JSON. -/
def getFieldValue (req : Request) : Field → Option Json
  | .paramId => req.path.head?.map .str
  | .name => req.body.name
  | .price => req.body.price
  | .availability => req.body.availability

/-- Run one check on a field value. -/
def runCheck : Check → Option Json → Bool
  | .isInt, some (.str s) => isIntString s
  | .isInt, _ => false
  | .notEmpty, v => !fieldEmpty v
  | .isNumeric, v => isNumericJson v
  | .customGtZero, v => jsGtZero v
  | .isBoolean, v => isBooleanJson v

/-- Run one validator: zero errors on pass, one error record on failure. -/
def runValidator (req : Request) (v : Validator) : List ValError :=
  if runCheck v.check (getFieldValue req v.field) then []
  else [(v.field.reportName, v.msg)]

/-! ### Handlers

Modelled from the spec: `src/handlers/product.ts` is not among the
provided sources (only its import in `src/router.ts` is), so each handler
follows the operation table of spec section 4.2. -/

/-- Identifier of the six handler functions imported by the router. -/
inductive HandlerId where
  | getProducts | getProductById | createProduct | updateProduct
  | updateAvailability | deleteProduct
deriving DecidableEq, Repr

/-- Coerce a JSON value to the string the store keeps for `name`. -/
def jsonAsString : Json → String
  | .str s => s
  | .num q => toString q
  | .bool b => toString b
  | .null => ""

/-- Coerce a validated `availability` body value to a boolean. -/
def jsonAsBool : Option Json → Bool
  | some (.bool b) => b
  | some (.str s) => s = "true" || s = "1"
  | some (.num q) => !(q = 0)
  | _ => false

/-- The integer id of the request's `:id` path segment, when it parses. -/
def requestId (req : Request) : Option Int :=
  req.path.head?.bind parseIntString

/-- Find the product with the given primary key. -/
def findById (ps : List Product) (i : Int) : Option Product :=
  ps.find? (fun p => p.id == i)

/-- Flip the availability of the row with primary key `i`. -/
def toggleAvail (ps : List Product) (i : Int) : List Product :=
  ps.map (fun p => if p.id == i then { p with availability := !p.availability } else p)

/-- Modelled from the spec: list handler — 200 with all products. -/
def getProducts (_req : Request) (s : Store) : Response × Store :=
  (⟨200, .products s.products⟩, s)

/-- Modelled from the spec: get-by-id handler — 200 with the matching
product, 404 when the id is not in the store. -/
def getProductById (req : Request) (s : Store) : Response × Store :=
  match requestId req with
  | none => (⟨404, .message "Producto no encontrado"⟩, s)
  | some i =>
    match findById s.products i with
    | none => (⟨404, .message "Producto no encontrado"⟩, s)
    | some p => (⟨200, .product p⟩, s)

/-- Modelled from the spec: create handler — the store assigns the id,
availability defaults to true, responds 201 with the new product. -/
def createProduct (req : Request) (s : Store) : Response × Store :=
  let nm := jsonAsString ((req.body.name).getD .null)
  let pr := ((req.body.price).bind numericValue).getD 0
  let p : Product := ⟨s.nextId, nm, pr, true⟩
  (⟨201, .product p⟩, ⟨s.products ++ [p], s.nextId + 1⟩)

/-- Modelled from the spec: full-update handler — replaces name, price and
availability of the row; 404 when the id is not in the store. -/
def updateProduct (req : Request) (s : Store) : Response × Store :=
  match requestId req with
  | none => (⟨404, .message "Producto no encontrado"⟩, s)
  | some i =>
    match findById s.products i with
    | none => (⟨404, .message "Producto no encontrado"⟩, s)
    | some _ =>
      let nm := jsonAsString ((req.body.name).getD .null)
      let pr := ((req.body.price).bind numericValue).getD 0
      let av := jsonAsBool req.body.availability
      let p : Product := ⟨i, nm, pr, av⟩
      (⟨200, .product p⟩,
        ⟨s.products.map (fun q => if q.id == i then p else q), s.nextId⟩)

/-- Modelled from the spec: patch handler — flips the row's availability
(logical NOT of the current value); 404 when the id is not in the store. -/
def updateAvailability (req : Request) (s : Store) : Response × Store :=
  match requestId req with
  | none => (⟨404, .message "Producto no encontrado"⟩, s)
  | some i =>
    match findById s.products i with
    | none => (⟨404, .message "Producto no encontrado"⟩, s)
    | some p =>
      (⟨200, .product { p with availability := !p.availability }⟩,
        ⟨toggleAvail s.products i, s.nextId⟩)

/-- Modelled from the spec: delete handler — hard delete, 200 with a
confirmation message; 404 when the id is not in the store. -/
def deleteProduct (req : Request) (s : Store) : Response × Store :=
  match requestId req with
  | none => (⟨404, .message "Producto no encontrado"⟩, s)
  | some i =>
    match findById s.products i with
    | none => (⟨404, .message "Producto no encontrado"⟩, s)
    | some _ =>
      (⟨200, .message "Producto eliminado"⟩,
        ⟨s.products.filter (fun p => p.id != i), s.nextId⟩)

/-- Dispatch table from handler identifier to handler function. -/
def runHandler : HandlerId → Request → Store → Response × Store
  | .getProducts => getProducts
  | .getProductById => getProductById
  | .createProduct => createProduct
  | .updateProduct => updateProduct
  | .updateAvailability => updateAvailability
  | .deleteProduct => deleteProduct

/-! ### Middleware chains and dispatch -/

/-- Modelled from the spec: the `handleInputErrors` middleware (its module
`src/midlleware` is not among the provided sources) — respond 400 with the
collected error list when non-empty, otherwise continue. -/
def handleInputErrors (errs : List ValError) : Option Response :=
  if errs.isEmpty then none else some ⟨400, .errors errs⟩

/-- One element of a route's middleware chain, in registration order. -/
inductive Mw where
  | validator (v : Validator)
  | inputErrors
  | handler (h : HandlerId)
deriving DecidableEq, Repr

/-- Observable events of a request's trip through a chain. -/
inductive Event where
  | ranValidator (f : Field) (c : Check)
  | middlewarePassed
  | middlewareRejected
  | invoked (h : HandlerId)
deriving DecidableEq, Repr

/-- Run a middleware chain: validators accumulate errors on the request,
`handleInputErrors` short-circuits with 400 on any error, a handler ends
the request.  Returns the event trace and, when some middleware responded,
the response with the resulting store; `none` means the chain fell
through to the next matching route. -/
def runChain : List Mw → Request → Store → List ValError → List Event →
    List Event × Option (Response × Store)
  | [], _, _, _, tr => (tr, none)
  | .validator v :: rest, req, s, errs, tr =>
    runChain rest req s (errs ++ runValidator req v)
      (tr ++ [.ranValidator v.field v.check])
  | .inputErrors :: rest, req, s, errs, tr =>
    match handleInputErrors errs with
    | none => runChain rest req s errs (tr ++ [.middlewarePassed])
    | some resp => (tr ++ [.middlewareRejected], some (resp, s))
  | .handler h :: _, req, s, _, tr =>
    (tr ++ [.invoked h], some (runHandler h req s))

/-- A chain in the shape every validated route of `src/router.ts` uses:
the declared validators, then `handleInputErrors`, then the handler. -/
def chainOf (vs : List Validator) (hid : HandlerId) : List Mw :=
  vs.map .validator ++ [.inputErrors, .handler hid]

/-- Path pattern of a route: `"/"` or `"/:id"`. -/
inductive Pattern where
  | root | oneSeg
deriving DecidableEq, Repr

/-- A registered route: method, path pattern and middleware chain. -/
structure RouteDef where
  method : Method
  pattern : Pattern
  chain : List Mw
deriving DecidableEq, Repr

/-- Does a route match a request (method and path shape)? -/
def matchesRoute (r : RouteDef) (req : Request) : Bool :=
  r.method == req.method &&
    match r.pattern, req.path with
    | .root, [] => true
    | .oneSeg, [_] => true
    | _, _ => false

/-- Express dispatch: try routes in order; a matching route runs its
chain; a chain that falls through continues with the later routes. -/
def dispatch : List RouteDef → Request → Store →
    List Event × Option (Response × Store)
  | [], _, _ => ([], none)
  | r :: rest, req, s =>
    if matchesRoute r req then
      match runChain r.chain req s [] [] with
      | (tr, some out) => (tr, some out)
      | (tr, none) =>
        let (tr2, out) := dispatch rest req s
        (tr ++ tr2, out)
    else dispatch rest req s

/-! ### The route table of `src/router.ts`, in registration order -/

/-- `param("id").isInt().withMessage("Valor no admitido")`. -/
def idValidator : Validator := ⟨.paramId, .isInt, "Valor no admitido"⟩

/-- `body("name").notEmpty().withMessage(...)`. -/
def nameValidator : Validator :=
  ⟨.name, .notEmpty, "Debes ingresar un nombre de producto"⟩

/-- The three checks of the `body("price")` chain, in order. -/
def priceValidators : List Validator :=
  [⟨.price, .isNumeric, "Valor no admitido"⟩,
   ⟨.price, .notEmpty, "Debes ingresar un precio de producto"⟩,
   ⟨.price, .customGtZero, "Valor no admitido"⟩]

/-- `body("availability").isBoolean().withMessage(...)`. -/
def availValidator : Validator :=
  ⟨.availability, .isBoolean, "Valor de disponibilidad no válido"⟩

/-- `router.get("/", getProducts)` — no validators, no middleware. -/
def listRoute : RouteDef := ⟨.GET, .root, [.handler .getProducts]⟩

/-- `router.get("/:id", param(...).isInt(), handleInputErrors, getProductById)`. -/
def getByIdRoute : RouteDef :=
  ⟨.GET, .oneSeg, chainOf [idValidator] .getProductById⟩

/-- The validators of `router.put("/:id", ...)`: id, name, the price
chain, and availability, in declaration order. -/
def updateValidators : List Validator :=
  idValidator :: nameValidator :: priceValidators ++ [availValidator]

/-- `router.post("/", ...)` with the name and price validators. -/
def createRoute : RouteDef :=
  ⟨.POST, .root, chainOf (nameValidator :: priceValidators) .createProduct⟩

/-- `router.put("/:id", ...)` with id, name, price and availability validators. -/
def updateRoute : RouteDef :=
  ⟨.PUT, .oneSeg, chainOf updateValidators .updateProduct⟩

/-- `router.patch("/:id", param(...).isInt(), handleInputErrors, updateAvailability)` —
registered twice, identically. -/
def patchRoute : RouteDef :=
  ⟨.PATCH, .oneSeg, chainOf [idValidator] .updateAvailability⟩

/-- `router.delete("/:id", param(...).isInt(), handleInputErrors, deleteProduct)`. -/
def deleteRoute : RouteDef :=
  ⟨.DELETE, .oneSeg, chainOf [idValidator] .deleteProduct⟩

/-- All routes in the order `src/router.ts` registers them, with the
`PATCH /:id` route registered twice (lines 243 and 251). -/
def routerRoutes : List RouteDef :=
  [listRoute, getByIdRoute, createRoute, updateRoute, patchRoute, patchRoute,
   deleteRoute]

/-- The router with only the first `PATCH /:id` registration. -/
def routerRoutesSingle : List RouteDef :=
  [listRoute, getByIdRoute, createRoute, updateRoute, patchRoute, deleteRoute]

/-- Handle one request against the router as registered. -/
def handleRequest (req : Request) (s : Store) :
    List Event × Option (Response × Store) :=
  dispatch routerRoutes req s

/-! ### The CORS origin callback of the server assembly -/

/-- Outcome of the CORS origin callback. -/
inductive CorsResult where
  | allow
  | error (msg : String)
deriving DecidableEq, Repr

/-- The `corsOptions.origin` callback: `origin === process.env.FRONTEND_URL`
allows, anything else calls back with `new Error('Error de CORS')`.
`none` models JS `undefined` (absent Origin header / unset variable);
strict equality `===` makes `undefined === undefined` true. -/
def corsCheck (origin frontendUrl : Option String) : CorsResult :=
  if origin = frontendUrl then .allow else .error "Error de CORS"

/-! ### Derived notions used in the statements -/

/-- The errors a validator list collects on a request, in order. -/
def collectErrors (req : Request) : List Validator → List ValError
  | [] => []
  | v :: vs => runValidator req v ++ collectErrors req vs

/-- The trace events of running a validator list. -/
def validatorEvents (vs : List Validator) : List Event :=
  vs.map (fun v => .ranValidator v.field v.check)

/-- Does every `invoked` event in the trace come after a
`middlewarePassed` event?  The flag records whether the validation
middleware has already passed. -/
def handlersGated : List Event → Bool → Bool
  | [], _ => true
  | .invoked _ :: rest, passed => passed && handlersGated rest passed
  | .middlewarePassed :: rest, _ => handlersGated rest true
  | _ :: rest, passed => handlersGated rest passed

/-- Like `handlersGated`, but exempting one handler from the requirement. -/
def handlersGatedExcept (ex : HandlerId) : List Event → Bool → Bool
  | [], _ => true
  | .invoked h :: rest, passed => (passed || h == ex) && handlersGatedExcept ex rest passed
  | .middlewarePassed :: rest, _ => handlersGatedExcept ex rest true
  | _ :: rest, passed => handlersGatedExcept ex rest passed

/-- No handler at all is invoked in the trace. -/
def noHandlerInvoked (tr : List Event) : Bool :=
  tr.all (fun e => match e with | .invoked _ => false | _ => true)

/-- The empty store used by concrete witnesses. -/
def store0 : Store := ⟨[], 1⟩

/-- An empty request body. -/
def emptyBody : Body := {}

/-! ### Lemmas about chains and dispatch -/

theorem isEmpty_append {α : Type} (l m : List α) :
    (l ++ m).isEmpty = (l.isEmpty && m.isEmpty) := by
  cases l <;> simp

/-- Running the mapped validators accumulates exactly `collectErrors` and
`validatorEvents`. -/
theorem runChain_validators (vs : List Validator) (tail : List Mw) (req : Request)
    (s : Store) (errs0 : List ValError) (tr0 : List Event) :
    runChain (vs.map .validator ++ tail) req s errs0 tr0 =
      runChain tail req s (errs0 ++ collectErrors req vs) (tr0 ++ validatorEvents vs) := by
  induction vs generalizing errs0 tr0 with
  | nil => simp [collectErrors, validatorEvents]
  | cons v vs ih =>
    simp only [List.map_cons, List.cons_append, runChain, collectErrors,
      validatorEvents, List.map, List.append_eq]
    rw [ih]
    simp [validatorEvents, List.append_assoc]

/-- A validated route's chain either rejects with 400 and the collected
errors, or passes the middleware and invokes the handler. -/
theorem runChain_chainOf (vs : List Validator) (hid : HandlerId) (req : Request)
    (s : Store) :
    runChain (chainOf vs hid) req s [] [] =
      if (collectErrors req vs).isEmpty then
        (validatorEvents vs ++ [.middlewarePassed, .invoked hid],
          some (runHandler hid req s))
      else
        (validatorEvents vs ++ [.middlewareRejected],
          some (⟨400, .errors (collectErrors req vs)⟩, s)) := by
  rw [chainOf, runChain_validators]
  by_cases h : (collectErrors req vs).isEmpty <;>
    simp [runChain, handleInputErrors, h]

/-- The collected errors are empty exactly when every check passes. -/
theorem collectErrors_isEmpty (req : Request) (vs : List Validator) :
    (collectErrors req vs).isEmpty =
      vs.all (fun v => runCheck v.check (getFieldValue req v.field)) := by
  induction vs with
  | nil => rfl
  | cons v vs ih =>
    simp only [collectErrors, isEmpty_append, ih, runValidator, List.all_cons]
    by_cases h : runCheck v.check (getFieldValue req v.field) <;> simp [h]

/-- A non-matching route is skipped by dispatch. -/
theorem dispatch_skip (r : RouteDef) (rest : List RouteDef) (req : Request)
    (s : Store) (h : matchesRoute r req = false) :
    dispatch (r :: rest) req s = dispatch rest req s := by
  simp [dispatch, h]

/-- A matching route whose chain responds decides the dispatch. -/
theorem dispatch_hit (r : RouteDef) (rest : List RouteDef) (req : Request)
    (s : Store) (tr : List Event) (out : Response × Store)
    (hm : matchesRoute r req = true)
    (hc : runChain r.chain req s [] [] = (tr, some out)) :
    dispatch (r :: rest) req s = (tr, some out) := by
  simp [dispatch, hm, hc]

/-- A non-positive numeric value fails the `value > 0` custom check. -/
theorem jsGtZero_false_of_nonpos (v : Json) (q : Rat)
    (hv : numericValue v = some q) (hle : q ≤ 0) : jsGtZero (some v) = false := by
  cases v with
  | num q2 =>
    simp [numericValue] at hv
    subst hv
    simp [jsGtZero, not_lt.mpr hle]
  | str t =>
    simp [numericValue] at hv
    simp [jsGtZero, hv, not_lt.mpr hle]
  | bool b => simp [numericValue] at hv
  | null => simp [numericValue] at hv

/-- A string that parses as an integer passes `isInt`. -/
theorem isIntString_of_parse (s : String) (i : Int) (h : parseIntString s = some i) :
    isIntString s = true := by
  by_cases hs : isIntString s
  · exact hs
  · simp [parseIntString, hs] at h

/-- An id absent from every row is not found. -/
theorem findById_eq_none (ps : List Product) (i : Int) (h : ∀ p ∈ ps, p.id ≠ i) :
    findById ps i = none := by
  apply List.find?_eq_none.mpr
  intro p hp
  simp [h p hp]

theorem findById_cons (p : Product) (ps : List Product) (i : Int) :
    findById (p :: ps) i = if p.id == i then some p else findById ps i := by
  by_cases h : p.id == i <;> simp [findById, List.find?, h]

theorem toggleAvail_cons (p : Product) (ps : List Product) (i : Int) :
    toggleAvail (p :: ps) i =
      (if p.id == i then { p with availability := !p.availability } else p) ::
        toggleAvail ps i := rfl

/-- Toggling preserves ids, so lookup after a toggle finds the toggled row. -/
theorem findById_toggleAvail (ps : List Product) (i : Int) :
    findById (toggleAvail ps i) i =
      (findById ps i).map (fun p => { p with availability := !p.availability }) := by
  induction ps with
  | nil => rfl
  | cons p ps ih =>
    by_cases h : p.id == i
    · simp [toggleAvail_cons, findById_cons, h, ih]
    · simp [toggleAvail_cons, findById_cons, h, ih]

/-- Toggling a row's availability twice restores the table. -/
theorem toggleAvail_toggleAvail (ps : List Product) (i : Int) :
    toggleAvail (toggleAvail ps i) i = ps := by
  induction ps with
  | nil => rfl
  | cons p ps ih =>
    rw [toggleAvail_cons, toggleAvail_cons, ih]
    by_cases h : p.id == i
    · rw [if_pos h]
      have h2 : ({ p with availability := !p.availability } : Product).id == i := h
      rw [if_pos h2]
      cases p
      simp
    · rw [if_neg h, if_neg h]

/-- A validated route's chain always responds: it never falls through to a
later route. -/
theorem runChain_chainOf_isSome (vs : List Validator) (hid : HandlerId)
    (req : Request) (s : Store) :
    (runChain (chainOf vs hid) req s [] []).2.isSome = true := by
  rw [runChain_chainOf]
  by_cases h : (collectErrors req vs).isEmpty <;> simp [h]

/-- A duplicated route whose chain always responds is redundant. -/
theorem dispatch_dup (r : RouteDef) (rest : List RouteDef)
    (hr : ∀ req s, (runChain r.chain req s [] []).2.isSome = true)
    (req : Request) (s : Store) :
    dispatch (r :: r :: rest) req s = dispatch (r :: rest) req s := by
  by_cases h : matchesRoute r req
  · rcases he : runChain r.chain req s [] [] with ⟨tr, o⟩
    cases o with
    | none =>
      exfalso
      have h2 := hr req s
      rw [he] at h2
      simp at h2
    | some out => rw [dispatch_hit _ _ _ _ _ _ h he, dispatch_hit _ _ _ _ _ _ h he]
  · have hf : matchesRoute r req = false := by simpa using h
    rw [dispatch_skip _ _ _ _ hf]

/-- Dispatch is a congruence in the tail of the route list. -/
theorem dispatch_ext_suffix (l t1 t2 : List RouteDef)
    (ht : ∀ req s, dispatch t1 req s = dispatch t2 req s) :
    ∀ (req : Request) (s : Store), dispatch (l ++ t1) req s = dispatch (l ++ t2) req s := by
  induction l with
  | nil => simpa using ht
  | cons r l ih =>
    intro req s
    by_cases h : matchesRoute r req
    · simp only [List.cons_append, dispatch, h, if_true]
      rcases he : runChain r.chain req s [] [] with ⟨tr, o⟩
      cases o with
      | none => simp [ih req s]
      | some out => rfl
    · have hf : matchesRoute r req = false := by simpa using h
      simp only [List.cons_append]
      rw [dispatch_skip _ _ _ _ hf, dispatch_skip _ _ _ _ hf]
      exact ih req s

/-! ### The claims -/

/-- Claim C1: for every non-integer value supplied as the `:id` path
segment on the get-by-id, update, patch-availability, and delete routes,
the response is HTTP 400 (with the store unchanged) and the downstream
handler is not invoked. -/
theorem c1_nonint_id_400 (m : Method) (idStr : String) (b : Body) (s : Store)
    (hm : m = .GET ∨ m = .PUT ∨ m = .PATCH ∨ m = .DELETE)
    (hid : isIntString idStr = false) :
    ∃ errs tr, handleRequest ⟨m, [idStr], b⟩ s = (tr, some (⟨400, .errors errs⟩, s)) ∧
      noHandlerInvoked tr = true := by
  rcases hm with rfl | rfl | rfl | rfl
  · have hrun := runChain_chainOf [idValidator] .getProductById ⟨.GET, [idStr], b⟩ s
    simp [collectErrors, runValidator, runCheck, getFieldValue, idValidator,
      validatorEvents, hid] at hrun
    have m1 : matchesRoute listRoute ⟨.GET, [idStr], b⟩ = false := rfl
    have m2 : matchesRoute getByIdRoute ⟨.GET, [idStr], b⟩ = true := rfl
    rw [handleRequest, routerRoutes, dispatch_skip _ _ _ _ m1,
      dispatch_hit _ _ _ _ _ _ m2 hrun]
    exact ⟨_, _, rfl, rfl⟩
  · have hrun := runChain_chainOf updateValidators .updateProduct ⟨.PUT, [idStr], b⟩ s
    rw [collectErrors_isEmpty] at hrun
    simp [updateValidators, priceValidators, idValidator, nameValidator, availValidator,
      runCheck, getFieldValue, validatorEvents, hid] at hrun
    have m1 : matchesRoute listRoute ⟨.PUT, [idStr], b⟩ = false := rfl
    have m2 : matchesRoute getByIdRoute ⟨.PUT, [idStr], b⟩ = false := rfl
    have m3 : matchesRoute createRoute ⟨.PUT, [idStr], b⟩ = false := rfl
    have m4 : matchesRoute updateRoute ⟨.PUT, [idStr], b⟩ = true := rfl
    rw [handleRequest, routerRoutes, dispatch_skip _ _ _ _ m1, dispatch_skip _ _ _ _ m2,
      dispatch_skip _ _ _ _ m3, dispatch_hit _ _ _ _ _ _ m4 hrun]
    exact ⟨_, _, rfl, rfl⟩
  · have hrun := runChain_chainOf [idValidator] .updateAvailability ⟨.PATCH, [idStr], b⟩ s
    simp [collectErrors, runValidator, runCheck, getFieldValue, idValidator,
      validatorEvents, hid] at hrun
    have m1 : matchesRoute listRoute ⟨.PATCH, [idStr], b⟩ = false := rfl
    have m2 : matchesRoute getByIdRoute ⟨.PATCH, [idStr], b⟩ = false := rfl
    have m3 : matchesRoute createRoute ⟨.PATCH, [idStr], b⟩ = false := rfl
    have m4 : matchesRoute updateRoute ⟨.PATCH, [idStr], b⟩ = false := rfl
    have m5 : matchesRoute patchRoute ⟨.PATCH, [idStr], b⟩ = true := rfl
    rw [handleRequest, routerRoutes, dispatch_skip _ _ _ _ m1, dispatch_skip _ _ _ _ m2,
      dispatch_skip _ _ _ _ m3, dispatch_skip _ _ _ _ m4,
      dispatch_hit _ _ _ _ _ _ m5 hrun]
    exact ⟨_, _, rfl, rfl⟩
  · have hrun := runChain_chainOf [idValidator] .deleteProduct ⟨.DELETE, [idStr], b⟩ s
    simp [collectErrors, runValidator, runCheck, getFieldValue, idValidator,
      validatorEvents, hid] at hrun
    have m1 : matchesRoute listRoute ⟨.DELETE, [idStr], b⟩ = false := rfl
    have m2 : matchesRoute getByIdRoute ⟨.DELETE, [idStr], b⟩ = false := rfl
    have m3 : matchesRoute createRoute ⟨.DELETE, [idStr], b⟩ = false := rfl
    have m4 : matchesRoute updateRoute ⟨.DELETE, [idStr], b⟩ = false := rfl
    have m5 : matchesRoute patchRoute ⟨.DELETE, [idStr], b⟩ = false := rfl
    have m6 : matchesRoute deleteRoute ⟨.DELETE, [idStr], b⟩ = true := rfl
    rw [handleRequest, routerRoutes, dispatch_skip _ _ _ _ m1, dispatch_skip _ _ _ _ m2,
      dispatch_skip _ _ _ _ m3, dispatch_skip _ _ _ _ m4, dispatch_skip _ _ _ _ m5,
      dispatch_skip _ _ _ _ m5, dispatch_hit _ _ _ _ _ _ m6 hrun]
    exact ⟨_, _, rfl, rfl⟩

/-- Claim C1 witness: `GET /abc` on the empty store. -/
theorem c1_nonint_id_400_witness :
    (∃ errs tr, handleRequest ⟨.GET, ["abc"], emptyBody⟩ store0 =
      (tr, some (⟨400, .errors errs⟩, store0)) ∧ noHandlerInvoked tr = true) :=
  c1_nonint_id_400 .GET "abc" emptyBody store0 (Or.inl rfl) (by decide)

/-- Claim C2: a create request whose `price` has a non-positive numeric
value, or whose `price` is not numeric, or whose `name` is empty, gets
HTTP 400, no product is created (the store is unchanged), and the handler
is not invoked. -/
theorem c2_invalid_create_400 (b : Body) (s : Store)
    (h : (∃ v q, b.price = some v ∧ numericValue v = some q ∧ q ≤ 0) ∨
      isNumericJson b.price = false ∨ fieldEmpty b.name = true) :
    ∃ errs tr, handleRequest ⟨.POST, [], b⟩ s = (tr, some (⟨400, .errors errs⟩, s)) ∧
      noHandlerInvoked tr = true := by
  have hfail : (collectErrors ⟨.POST, [], b⟩ (nameValidator :: priceValidators)).isEmpty
      = false := by
    rw [collectErrors_isEmpty]
    rcases h with ⟨v, q, hv, hnum, hle⟩ | hB | hC
    · have hz : jsGtZero b.price = false := by
        rw [hv]; exact jsGtZero_false_of_nonpos v q hnum hle
      simp [priceValidators, nameValidator, runCheck, getFieldValue, hz]
    · simp [priceValidators, nameValidator, runCheck, getFieldValue, hB]
    · simp [priceValidators, nameValidator, runCheck, getFieldValue, hC]
  have hrun := runChain_chainOf (nameValidator :: priceValidators) .createProduct
    ⟨.POST, [], b⟩ s
  rw [hfail] at hrun
  simp only [Bool.false_eq_true, ite_false] at hrun
  have m1 : matchesRoute listRoute ⟨.POST, [], b⟩ = false := rfl
  have m2 : matchesRoute getByIdRoute ⟨.POST, [], b⟩ = false := rfl
  have m3 : matchesRoute createRoute ⟨.POST, [], b⟩ = true := rfl
  rw [handleRequest, routerRoutes, dispatch_skip _ _ _ _ m1, dispatch_skip _ _ _ _ m2,
    dispatch_hit _ _ _ _ _ _ m3 hrun]
  exact ⟨_, _, rfl, rfl⟩

/-- Claim C2 witness: create with `price = -1`. -/
theorem c2_invalid_create_400_witness :
    (∃ errs tr, handleRequest ⟨.POST, [], ⟨some (.str "Monitor"), some (.num (-1)), none⟩⟩
      store0 = (tr, some (⟨400, .errors errs⟩, store0)) ∧ noHandlerInvoked tr = true) :=
  c2_invalid_create_400 ⟨some (.str "Monitor"), some (.num (-1)), none⟩ store0
    (Or.inl ⟨.num (-1), -1, rfl, rfl, by decide⟩)

/-- Claim C3: a valid create request (non-empty string `name`, numeric
`price > 0`) gets HTTP 201 whose body is the created product with the
store-assigned id, the input name, the input price and availability true;
the product is appended to the store. -/
theorem c3_valid_create_201 (b : Body) (s : Store) (nm : String) (q : Rat)
    (hn : b.name = some (.str nm)) (hne : nm ≠ "")
    (hp : b.price = some (.num q)) (hq : 0 < q) :
    (handleRequest ⟨.POST, [], b⟩ s).2 =
      some (⟨201, .product ⟨s.nextId, nm, q, true⟩⟩,
        ⟨s.products ++ [⟨s.nextId, nm, q, true⟩], s.nextId + 1⟩) := by
  have hpass : (collectErrors ⟨.POST, [], b⟩ (nameValidator :: priceValidators)).isEmpty
      = true := by
    rw [collectErrors_isEmpty]
    simp [priceValidators, nameValidator, runCheck, getFieldValue, hn, hp,
      fieldEmpty, isNumericJson, jsGtZero, hne, hq]
  have hrun := runChain_chainOf (nameValidator :: priceValidators) .createProduct
    ⟨.POST, [], b⟩ s
  rw [hpass] at hrun
  simp only [ite_true] at hrun
  have m1 : matchesRoute listRoute ⟨.POST, [], b⟩ = false := rfl
  have m2 : matchesRoute getByIdRoute ⟨.POST, [], b⟩ = false := rfl
  have m3 : matchesRoute createRoute ⟨.POST, [], b⟩ = true := rfl
  rw [handleRequest, routerRoutes, dispatch_skip _ _ _ _ m1, dispatch_skip _ _ _ _ m2,
    dispatch_hit _ _ _ _ _ _ m3 hrun]
  simp [runHandler, createProduct, hn, hp, numericValue, jsonAsString]

/-- Claim C3 witness: the spec scenario `POST {name: Monitor, price: 300}`. -/
theorem c3_valid_create_201_witness :
    (handleRequest ⟨.POST, [], ⟨some (.str "Monitor"), some (.num 300), none⟩⟩ store0).2 =
      some (⟨201, .product ⟨1, "Monitor", 300, true⟩⟩, ⟨[⟨1, "Monitor", 300, true⟩], 2⟩) :=
  c3_valid_create_201 _ store0 "Monitor" 300 rfl (by decide) rfl (by decide)

/-- Claim C4: for an integer `id` not present in the store, get-by-id,
update (with a body that passes validation), patch-availability and delete
each respond HTTP 404 with the store unchanged. -/
theorem c4_missing_id_404 (idStr : String) (i : Int) (b bput : Body) (s : Store)
    (hid : parseIntString idStr = some i)
    (habs : ∀ p ∈ s.products, p.id ≠ i)
    (hb1 : fieldEmpty bput.name = false) (hb2 : isNumericJson bput.price = true)
    (hb3 : fieldEmpty bput.price = false) (hb4 : jsGtZero bput.price = true)
    (hb5 : isBooleanJson bput.availability = true) :
    (handleRequest ⟨.GET, [idStr], b⟩ s).2 =
        some (⟨404, .message "Producto no encontrado"⟩, s) ∧
      (handleRequest ⟨.PUT, [idStr], bput⟩ s).2 =
        some (⟨404, .message "Producto no encontrado"⟩, s) ∧
      (handleRequest ⟨.PATCH, [idStr], b⟩ s).2 =
        some (⟨404, .message "Producto no encontrado"⟩, s) ∧
      (handleRequest ⟨.DELETE, [idStr], b⟩ s).2 =
        some (⟨404, .message "Producto no encontrado"⟩, s) := by
  have hint : isIntString idStr = true := isIntString_of_parse idStr i hid
  have hfind : findById s.products i = none := findById_eq_none s.products i habs
  refine ⟨?_, ?_, ?_, ?_⟩
  · have hrun := runChain_chainOf [idValidator] .getProductById ⟨.GET, [idStr], b⟩ s
    simp [collectErrors, runValidator, runCheck, getFieldValue, idValidator, hint] at hrun
    have m1 : matchesRoute listRoute ⟨.GET, [idStr], b⟩ = false := rfl
    have m2 : matchesRoute getByIdRoute ⟨.GET, [idStr], b⟩ = true := rfl
    rw [handleRequest, routerRoutes, dispatch_skip _ _ _ _ m1,
      dispatch_hit _ _ _ _ _ _ m2 hrun]
    simp [runHandler, getProductById, requestId, hid, hfind]
  · have hrun := runChain_chainOf updateValidators .updateProduct ⟨.PUT, [idStr], bput⟩ s
    rw [collectErrors_isEmpty] at hrun
    simp [updateValidators, priceValidators, idValidator, nameValidator, availValidator,
      runCheck, getFieldValue, hint, hb1, hb2, hb3, hb4, hb5] at hrun
    have m1 : matchesRoute listRoute ⟨.PUT, [idStr], bput⟩ = false := rfl
    have m2 : matchesRoute getByIdRoute ⟨.PUT, [idStr], bput⟩ = false := rfl
    have m3 : matchesRoute createRoute ⟨.PUT, [idStr], bput⟩ = false := rfl
    have m4 : matchesRoute updateRoute ⟨.PUT, [idStr], bput⟩ = true := rfl
    rw [handleRequest, routerRoutes, dispatch_skip _ _ _ _ m1, dispatch_skip _ _ _ _ m2,
      dispatch_skip _ _ _ _ m3, dispatch_hit _ _ _ _ _ _ m4 hrun]
    simp [runHandler, updateProduct, requestId, hid, hfind]
  · have hrun := runChain_chainOf [idValidator] .updateAvailability ⟨.PATCH, [idStr], b⟩ s
    simp [collectErrors, runValidator, runCheck, getFieldValue, idValidator, hint] at hrun
    have m1 : matchesRoute listRoute ⟨.PATCH, [idStr], b⟩ = false := rfl
    have m2 : matchesRoute getByIdRoute ⟨.PATCH, [idStr], b⟩ = false := rfl
    have m3 : matchesRoute createRoute ⟨.PATCH, [idStr], b⟩ = false := rfl
    have m4 : matchesRoute updateRoute ⟨.PATCH, [idStr], b⟩ = false := rfl
    have m5 : matchesRoute patchRoute ⟨.PATCH, [idStr], b⟩ = true := rfl
    rw [handleRequest, routerRoutes, dispatch_skip _ _ _ _ m1, dispatch_skip _ _ _ _ m2,
      dispatch_skip _ _ _ _ m3, dispatch_skip _ _ _ _ m4,
      dispatch_hit _ _ _ _ _ _ m5 hrun]
    simp [runHandler, updateAvailability, requestId, hid, hfind]
  · have hrun := runChain_chainOf [idValidator] .deleteProduct ⟨.DELETE, [idStr], b⟩ s
    simp [collectErrors, runValidator, runCheck, getFieldValue, idValidator, hint] at hrun
    have m1 : matchesRoute listRoute ⟨.DELETE, [idStr], b⟩ = false := rfl
    have m2 : matchesRoute getByIdRoute ⟨.DELETE, [idStr], b⟩ = false := rfl
    have m3 : matchesRoute createRoute ⟨.DELETE, [idStr], b⟩ = false := rfl
    have m4 : matchesRoute updateRoute ⟨.DELETE, [idStr], b⟩ = false := rfl
    have m5 : matchesRoute patchRoute ⟨.DELETE, [idStr], b⟩ = false := rfl
    have m6 : matchesRoute deleteRoute ⟨.DELETE, [idStr], b⟩ = true := rfl
    rw [handleRequest, routerRoutes, dispatch_skip _ _ _ _ m1, dispatch_skip _ _ _ _ m2,
      dispatch_skip _ _ _ _ m3, dispatch_skip _ _ _ _ m4, dispatch_skip _ _ _ _ m5,
      dispatch_skip _ _ _ _ m5, dispatch_hit _ _ _ _ _ _ m6 hrun]
    simp [runHandler, deleteProduct, requestId, hid, hfind]

/-- Claim C4 witness: id 9999 on the empty store (the spec scenario). -/
theorem c4_missing_id_404_witness :
    (handleRequest ⟨.GET, ["9999"], emptyBody⟩ store0).2 =
        some (⟨404, .message "Producto no encontrado"⟩, store0) ∧
      (handleRequest ⟨.PUT, ["9999"], ⟨some (.str "X"), some (.num 5), some (.bool true)⟩⟩
        store0).2 = some (⟨404, .message "Producto no encontrado"⟩, store0) ∧
      (handleRequest ⟨.PATCH, ["9999"], emptyBody⟩ store0).2 =
        some (⟨404, .message "Producto no encontrado"⟩, store0) ∧
      (handleRequest ⟨.DELETE, ["9999"], emptyBody⟩ store0).2 =
        some (⟨404, .message "Producto no encontrado"⟩, store0) :=
  c4_missing_id_404 "9999" 9999 emptyBody
    ⟨some (.str "X"), some (.num 5), some (.bool true)⟩ store0
    (by decide) (by simp [store0]) rfl rfl rfl (by decide) rfl

/-- Claim C5: patch-availability flips the found product's availability to
the logical NOT of its current value, and applying it twice returns both
the response product and the store to the original state. -/
theorem c5_patch_involution (idStr : String) (i : Int) (b b2 : Body) (s : Store)
    (p : Product)
    (hid : parseIntString idStr = some i)
    (hfind : findById s.products i = some p) :
    (handleRequest ⟨.PATCH, [idStr], b⟩ s).2 =
        some (⟨200, .product { p with availability := !p.availability }⟩,
          ⟨toggleAvail s.products i, s.nextId⟩) ∧
      (handleRequest ⟨.PATCH, [idStr], b2⟩ ⟨toggleAvail s.products i, s.nextId⟩).2 =
        some (⟨200, .product p⟩, s) := by
  have hint : isIntString idStr = true := isIntString_of_parse idStr i hid
  constructor
  · have hrun := runChain_chainOf [idValidator] .updateAvailability ⟨.PATCH, [idStr], b⟩ s
    simp [collectErrors, runValidator, runCheck, getFieldValue, idValidator, hint] at hrun
    have m1 : matchesRoute listRoute ⟨.PATCH, [idStr], b⟩ = false := rfl
    have m2 : matchesRoute getByIdRoute ⟨.PATCH, [idStr], b⟩ = false := rfl
    have m3 : matchesRoute createRoute ⟨.PATCH, [idStr], b⟩ = false := rfl
    have m4 : matchesRoute updateRoute ⟨.PATCH, [idStr], b⟩ = false := rfl
    have m5 : matchesRoute patchRoute ⟨.PATCH, [idStr], b⟩ = true := rfl
    rw [handleRequest, routerRoutes, dispatch_skip _ _ _ _ m1, dispatch_skip _ _ _ _ m2,
      dispatch_skip _ _ _ _ m3, dispatch_skip _ _ _ _ m4,
      dispatch_hit _ _ _ _ _ _ m5 hrun]
    simp [runHandler, updateAvailability, requestId, hid, hfind]
  · have hrun := runChain_chainOf [idValidator] .updateAvailability
      ⟨.PATCH, [idStr], b2⟩ ⟨toggleAvail s.products i, s.nextId⟩
    simp [collectErrors, runValidator, runCheck, getFieldValue, idValidator, hint] at hrun
    have m1 : matchesRoute listRoute ⟨.PATCH, [idStr], b2⟩ = false := rfl
    have m2 : matchesRoute getByIdRoute ⟨.PATCH, [idStr], b2⟩ = false := rfl
    have m3 : matchesRoute createRoute ⟨.PATCH, [idStr], b2⟩ = false := rfl
    have m4 : matchesRoute updateRoute ⟨.PATCH, [idStr], b2⟩ = false := rfl
    have m5 : matchesRoute patchRoute ⟨.PATCH, [idStr], b2⟩ = true := rfl
    rw [handleRequest, routerRoutes, dispatch_skip _ _ _ _ m1, dispatch_skip _ _ _ _ m2,
      dispatch_skip _ _ _ _ m3, dispatch_skip _ _ _ _ m4,
      dispatch_hit _ _ _ _ _ _ m5 hrun]
    simp only [runHandler, updateAvailability, requestId, List.head?, Option.some_bind,
      hid, findById_toggleAvail, hfind, Option.map_some, toggleAvail_toggleAvail]
    cases p
    simp [Bool.not_not]

/-- Claim C5 witness: the spec scenario, patching product 1 twice. -/
theorem c5_patch_involution_witness :
    (handleRequest ⟨.PATCH, ["1"], emptyBody⟩ ⟨[⟨1, "A", 2, true⟩], 2⟩).2 =
        some (⟨200, .product ⟨1, "A", 2, false⟩⟩,
          ⟨toggleAvail [⟨1, "A", 2, true⟩] 1, 2⟩) ∧
      (handleRequest ⟨.PATCH, ["1"], emptyBody⟩
          ⟨toggleAvail [⟨1, "A", 2, true⟩] 1, 2⟩).2 =
        some (⟨200, .product ⟨1, "A", 2, true⟩⟩, ⟨[⟨1, "A", 2, true⟩], 2⟩) :=
  c5_patch_involution "1" 1 emptyBody emptyBody ⟨[⟨1, "A", 2, true⟩], 2⟩
    ⟨1, "A", 2, true⟩ (by decide) (by decide)

/-- Claim C6: a full-update (PUT) request that omits `name`, `price` or
`availability` gets HTTP 400 with the store unchanged and the handler is
not invoked. -/
theorem c6_put_missing_field_400 (idStr : String) (b : Body) (s : Store)
    (h : b.name = none ∨ b.price = none ∨ b.availability = none) :
    ∃ errs tr, handleRequest ⟨.PUT, [idStr], b⟩ s = (tr, some (⟨400, .errors errs⟩, s)) ∧
      noHandlerInvoked tr = true := by
  have hfail : (collectErrors ⟨.PUT, [idStr], b⟩ updateValidators).isEmpty = false := by
    rw [collectErrors_isEmpty]
    rcases h with hA | hB | hC
    · simp [updateValidators, priceValidators, idValidator, nameValidator, availValidator,
        runCheck, getFieldValue, hA, fieldEmpty]
    · simp [updateValidators, priceValidators, idValidator, nameValidator, availValidator,
        runCheck, getFieldValue, hB, isNumericJson]
    · simp [updateValidators, priceValidators, idValidator, nameValidator, availValidator,
        runCheck, getFieldValue, hC, isBooleanJson]
  have hrun := runChain_chainOf updateValidators .updateProduct ⟨.PUT, [idStr], b⟩ s
  rw [hfail] at hrun
  simp only [Bool.false_eq_true, ite_false] at hrun
  have m1 : matchesRoute listRoute ⟨.PUT, [idStr], b⟩ = false := rfl
  have m2 : matchesRoute getByIdRoute ⟨.PUT, [idStr], b⟩ = false := rfl
  have m3 : matchesRoute createRoute ⟨.PUT, [idStr], b⟩ = false := rfl
  have m4 : matchesRoute updateRoute ⟨.PUT, [idStr], b⟩ = true := rfl
  rw [handleRequest, routerRoutes, dispatch_skip _ _ _ _ m1, dispatch_skip _ _ _ _ m2,
    dispatch_skip _ _ _ _ m3, dispatch_hit _ _ _ _ _ _ m4 hrun]
  exact ⟨_, _, rfl, rfl⟩

/-- Claim C6 witness: a PUT body missing `availability`. -/
theorem c6_put_missing_field_400_witness :
    (∃ errs tr, handleRequest ⟨.PUT, ["1"], ⟨some (.str "X"), some (.num 5), none⟩⟩ store0 =
      (tr, some (⟨400, .errors errs⟩, store0)) ∧ noHandlerInvoked tr = true) :=
  c6_put_missing_field_400 "1" ⟨some (.str "X"), some (.num 5), none⟩ store0
    (Or.inr (Or.inr rfl))

/-- Claim C7 counterexample: it is not the case that every handler is
invoked only after the validation middleware has passed; the list route
(`GET /`) invokes `getProducts` with no middleware in its chain, witnessed
by the trace of `GET /` on the empty store. -/
theorem c7_not_all_handlers_gated : ¬ (∀ (req : Request) (s : Store),
    handlersGated (handleRequest req s).1 false = true) := by
  intro h
  have h2 : handlersGated (handleRequest ⟨.GET, [], emptyBody⟩ store0).1 false = false := rfl
  have h3 := h ⟨.GET, [], emptyBody⟩ store0
  rw [h2] at h3
  exact Bool.false_ne_true h3

/-- Claim C7 as amended: on every request, every handler other than the
list handler `getProducts` is invoked only after the validation middleware
has passed; the list route reaches its handler with no middleware. -/
theorem c7_handlers_gated_except_list : ∀ (req : Request) (s : Store),
    handlersGatedExcept .getProducts (handleRequest req s).1 false = true := by
  intro req s
  obtain ⟨m, path, b⟩ := req
  match path with
  | x :: y :: t2 =>
    have hz : handleRequest ⟨m, x :: y :: t2, b⟩ s = ([], none) := by cases m <;> rfl
    rw [hz]
    rfl
  | [] =>
    cases m with
    | GET => rfl
    | POST =>
      have hrun := runChain_chainOf (nameValidator :: priceValidators) .createProduct
        ⟨.POST, [], b⟩ s
      have m1 : matchesRoute listRoute ⟨.POST, [], b⟩ = false := rfl
      have m2 : matchesRoute getByIdRoute ⟨.POST, [], b⟩ = false := rfl
      have m3 : matchesRoute createRoute ⟨.POST, [], b⟩ = true := rfl
      by_cases hc : (collectErrors ⟨.POST, [], b⟩ (nameValidator :: priceValidators)).isEmpty
      · rw [if_pos hc] at hrun
        rw [handleRequest, routerRoutes, dispatch_skip _ _ _ _ m1, dispatch_skip _ _ _ _ m2,
          dispatch_hit _ _ _ _ _ _ m3 hrun]
        rfl
      · rw [if_neg hc] at hrun
        rw [handleRequest, routerRoutes, dispatch_skip _ _ _ _ m1, dispatch_skip _ _ _ _ m2,
          dispatch_hit _ _ _ _ _ _ m3 hrun]
        rfl
    | PUT => rfl
    | PATCH => rfl
    | DELETE => rfl
  | [x] =>
    cases m with
    | GET =>
      have hrun := runChain_chainOf [idValidator] .getProductById ⟨.GET, [x], b⟩ s
      have m1 : matchesRoute listRoute ⟨.GET, [x], b⟩ = false := rfl
      have m2 : matchesRoute getByIdRoute ⟨.GET, [x], b⟩ = true := rfl
      by_cases hc : (collectErrors ⟨.GET, [x], b⟩ [idValidator]).isEmpty
      · rw [if_pos hc] at hrun
        rw [handleRequest, routerRoutes, dispatch_skip _ _ _ _ m1,
          dispatch_hit _ _ _ _ _ _ m2 hrun]
        rfl
      · rw [if_neg hc] at hrun
        rw [handleRequest, routerRoutes, dispatch_skip _ _ _ _ m1,
          dispatch_hit _ _ _ _ _ _ m2 hrun]
        rfl
    | POST => rfl
    | PUT =>
      have hrun := runChain_chainOf updateValidators .updateProduct ⟨.PUT, [x], b⟩ s
      have m1 : matchesRoute listRoute ⟨.PUT, [x], b⟩ = false := rfl
      have m2 : matchesRoute getByIdRoute ⟨.PUT, [x], b⟩ = false := rfl
      have m3 : matchesRoute createRoute ⟨.PUT, [x], b⟩ = false := rfl
      have m4 : matchesRoute updateRoute ⟨.PUT, [x], b⟩ = true := rfl
      by_cases hc : (collectErrors ⟨.PUT, [x], b⟩ updateValidators).isEmpty
      · rw [if_pos hc] at hrun
        rw [handleRequest, routerRoutes, dispatch_skip _ _ _ _ m1, dispatch_skip _ _ _ _ m2,
          dispatch_skip _ _ _ _ m3, dispatch_hit _ _ _ _ _ _ m4 hrun]
        rfl
      · rw [if_neg hc] at hrun
        rw [handleRequest, routerRoutes, dispatch_skip _ _ _ _ m1, dispatch_skip _ _ _ _ m2,
          dispatch_skip _ _ _ _ m3, dispatch_hit _ _ _ _ _ _ m4 hrun]
        rfl
    | PATCH =>
      have hrun := runChain_chainOf [idValidator] .updateAvailability ⟨.PATCH, [x], b⟩ s
      have m1 : matchesRoute listRoute ⟨.PATCH, [x], b⟩ = false := rfl
      have m2 : matchesRoute getByIdRoute ⟨.PATCH, [x], b⟩ = false := rfl
      have m3 : matchesRoute createRoute ⟨.PATCH, [x], b⟩ = false := rfl
      have m4 : matchesRoute updateRoute ⟨.PATCH, [x], b⟩ = false := rfl
      have m5 : matchesRoute patchRoute ⟨.PATCH, [x], b⟩ = true := rfl
      by_cases hc : (collectErrors ⟨.PATCH, [x], b⟩ [idValidator]).isEmpty
      · rw [if_pos hc] at hrun
        rw [handleRequest, routerRoutes, dispatch_skip _ _ _ _ m1, dispatch_skip _ _ _ _ m2,
          dispatch_skip _ _ _ _ m3, dispatch_skip _ _ _ _ m4,
          dispatch_hit _ _ _ _ _ _ m5 hrun]
        rfl
      · rw [if_neg hc] at hrun
        rw [handleRequest, routerRoutes, dispatch_skip _ _ _ _ m1, dispatch_skip _ _ _ _ m2,
          dispatch_skip _ _ _ _ m3, dispatch_skip _ _ _ _ m4,
          dispatch_hit _ _ _ _ _ _ m5 hrun]
        rfl
    | DELETE =>
      have hrun := runChain_chainOf [idValidator] .deleteProduct ⟨.DELETE, [x], b⟩ s
      have m1 : matchesRoute listRoute ⟨.DELETE, [x], b⟩ = false := rfl
      have m2 : matchesRoute getByIdRoute ⟨.DELETE, [x], b⟩ = false := rfl
      have m3 : matchesRoute createRoute ⟨.DELETE, [x], b⟩ = false := rfl
      have m4 : matchesRoute updateRoute ⟨.DELETE, [x], b⟩ = false := rfl
      have m5 : matchesRoute patchRoute ⟨.DELETE, [x], b⟩ = false := rfl
      have m6 : matchesRoute deleteRoute ⟨.DELETE, [x], b⟩ = true := rfl
      by_cases hc : (collectErrors ⟨.DELETE, [x], b⟩ [idValidator]).isEmpty
      · rw [if_pos hc] at hrun
        rw [handleRequest, routerRoutes, dispatch_skip _ _ _ _ m1, dispatch_skip _ _ _ _ m2,
          dispatch_skip _ _ _ _ m3, dispatch_skip _ _ _ _ m4, dispatch_skip _ _ _ _ m5,
          dispatch_skip _ _ _ _ m5, dispatch_hit _ _ _ _ _ _ m6 hrun]
        rfl
      · rw [if_neg hc] at hrun
        rw [handleRequest, routerRoutes, dispatch_skip _ _ _ _ m1, dispatch_skip _ _ _ _ m2,
          dispatch_skip _ _ _ _ m3, dispatch_skip _ _ _ _ m4, dispatch_skip _ _ _ _ m5,
          dispatch_skip _ _ _ _ m5, dispatch_hit _ _ _ _ _ _ m6 hrun]
        rfl

/-- Claim C8: the CORS origin callback errors exactly when the request
origin is not strictly equal to the configured `FRONTEND_URL` value, and
allows exactly when it is equal — a single exact-match origin, no
wildcard and no list. -/
theorem c8_cors_exact_origin (origin frontendUrl : Option String) :
    ((∃ msg, corsCheck origin frontendUrl = .error msg) ↔ origin ≠ frontendUrl) ∧
      (corsCheck origin frontendUrl = .allow ↔ origin = frontendUrl) := by
  by_cases h : origin = frontendUrl <;> simp [corsCheck, h]

/-- Claim C9: the router with the duplicate `PATCH /:id` registration is
behaviorally equivalent, on every request and store, to the router with
only the first registration — same trace, same response, same store. -/
theorem c9_duplicate_patch_redundant (req : Request) (s : Store) :
    dispatch routerRoutes req s = dispatch routerRoutesSingle req s := by
  show dispatch ([listRoute, getByIdRoute, createRoute, updateRoute] ++
      (patchRoute :: patchRoute :: [deleteRoute])) req s =
    dispatch ([listRoute, getByIdRoute, createRoute, updateRoute] ++
      (patchRoute :: [deleteRoute])) req s
  exact dispatch_ext_suffix _ _ _
    (fun req s => dispatch_dup patchRoute [deleteRoute]
      (fun req s => runChain_chainOf_isSome [idValidator] .updateAvailability req s) req s)
    req s

/-- Claim C10: a request with no Origin header is allowed by the CORS
callback exactly when `FRONTEND_URL` is unset (both sides of the strict
equality are `undefined`), and is rejected whenever `FRONTEND_URL` is set. -/
theorem c10_no_origin_header :
    (∀ f : Option String, corsCheck none f = .allow ↔ f = none) ∧
      (∀ u : String, corsCheck none (some u) = .error "Error de CORS") := by
  constructor
  · intro f
    cases f <;> simp [corsCheck]
  · intro u
    simp [corsCheck]

end RestApi
